import Mathlib

/-
Verification of the retry backoff library (package retry, aqwari.net/retry).

The repository contains four variants of the package:
  variant A: src/unnamed/part_000, lines 1-267   (namespace RetryA below)
  variant B: src/unnamed/part_000, lines 268-447 (namespace RetryB below)
  variant C: src/retry.go, lines 1-113           (namespace RetryC below)
  variant D: src/retry.go, lines 114-371         (namespace RetryD below)

Durations (Go time.Duration = int64 nanoseconds) are modelled as Int with
explicit two's-complement wrapping (wrap64) wherever the Go arithmetic can
overflow.  A Go Strategy is modelled as a function Int → Int; a possibly-nil
Strategy as Option (Int → Int); a constructor that can fail fast as
Except String; an evaluation that can panic as Option Int.  The random draws
consumed by Splay are passed as explicit oracle arguments.
-/

namespace Retry

/-- math.MaxInt64 = 2^63 - 1. -/
def maxInt64 : Int := 9223372036854775807

/-- math.MinInt64 = -2^63. -/
def minInt64 : Int := -9223372036854775808

/-- time.Second in nanoseconds. -/
def second : Int := 1000000000

/-- time.Millisecond in nanoseconds. -/
def millisecond : Int := 1000000

/-- Two's-complement wrap of an integer into the signed 64-bit range,
modelling Go int64 overflow (9223372036854775808 = 2^63,
18446744073709551616 = 2^64). -/
def wrap64 (x : Int) : Int :=
  (x + 9223372036854775808) % 18446744073709551616 - 9223372036854775808

/-- Go slice indexing at an index the surrounding code has already checked
to be in bounds (total, with an irrelevant default). -/
def goGet (l : List Int) (i : Int) : Int := l.getD i.toNat 0

/-- Go slice indexing with its run-time bounds check: an out-of-range index
makes the program panic, modelled as none. -/
def goIndex (l : List Int) (i : Int) : Option Int :=
  if 0 ≤ i ∧ i < (l.length : Int) then some (l.getD i.toNat 0) else none

/-- The statement "if nth < 0 \x7b nth = 0 \x7d" that begins every
interval-table closure and the Unshift/Overwrite closures. -/
def clamp0 (nth : Int) : Int := if nth < 0 then 0 else nth

/-- The body of the table closures: "if nth < len(tbl) \x7b return tbl[nth] \x7d
return tbl[len(tbl)-1]", after the negative clamp. -/
def tableLookup (tbl : List Int) (nth : Int) : Int :=
  if clamp0 nth < (tbl.length : Int) then goGet tbl (clamp0 nth)
  else goGet tbl ((tbl.length : Int) - 1)

/-- The body of the unit-scaled table closures (Seconds, Milliseconds):
as tableLookup but each selected entry is multiplied by the fixed unit
(Go int64 multiplication, hence wrap64). -/
def scaledLookup (unit : Int) (tbl : List Int) (nth : Int) : Int :=
  if clamp0 nth < (tbl.length : Int) then wrap64 (unit * goGet tbl (clamp0 nth))
  else wrap64 (unit * goGet tbl ((tbl.length : Int) - 1))

/-- The saturating doubling loop shared by the Exponential generators of
variants A and D: "for i := 0; i < n; i++ \x7b if x > math.MaxInt64/2
\x7b return math.MaxInt64 \x7d; x *= 2 \x7d; return x". -/
def expLoop : Nat → Int → Int
  | 0, x => x
  | n + 1, x => if x > maxInt64 / 2 then maxInt64 else expLoop n (wrap64 (x * 2))

/-- The unchecked doubling loop of the Exponential generators of variants
B and C: "x := 1; for i := 0; i < nth; i++ \x7b x *= 2 \x7d"
(plain int64 multiplication, wraps on overflow). -/
def doubleLoop : Nat → Int → Int
  | 0, x => x
  | n + 1, x => doubleLoop n (wrap64 (x * 2))

/-- The overflow-avoiding jitter addition shared by every Splay closure:
"if jitter > 0 && val > math.MaxInt64-jitter \x7b jitter = -jitter \x7d
else if val < 0 && jitter < 0 && val < math.MinInt64-jitter
\x7b jitter = -jitter \x7d; return val + jitter". -/
def splayCore (val jitter : Int) : Int :=
  let j := if jitter > 0 ∧ val > maxInt64 - jitter then -jitter
           else if val < 0 ∧ jitter < 0 ∧ val < minInt64 - jitter then -jitter
           else jitter
  wrap64 (val + j)

end Retry

namespace RetryA

/-- src/unnamed/part_000 lines 44-59: Exponential() returns 2^retry
nanoseconds, 0 for negative retry, saturating at math.MaxInt64. -/
def Exponential : Int → Int := fun retry =>
  if retry < 0 then 0 else Retry.expLoop retry.toNat 1

/-- src/unnamed/part_000 lines 66-79: Fixed selects the nth duration of the
argument list, clamping nth to [0, len-1]; the empty list gives the constant
zero strategy.  The closure captures the caller's slice without copying. -/
def Fixed (dur : List Int) : Int → Int :=
  if dur.length = 0 then fun _ => 0
  else fun nth => Retry.tableLookup dur nth

/-- src/unnamed/part_000 lines 84-97: Milliseconds, the nth entry times
time.Millisecond, with the same clamping and empty-list behaviour. -/
def Milliseconds (ms : List Int) : Int → Int :=
  if ms.length = 0 then fun _ => 0
  else fun nth => Retry.scaledLookup Retry.millisecond ms nth

/-- src/unnamed/part_000 lines 101-114: Seconds, the nth entry times
time.Second, with the same clamping and empty-list behaviour. -/
def Seconds (secs : List Int) : Int → Int :=
  if secs.length = 0 then fun _ => 0
  else fun nth => Retry.scaledLookup Retry.second secs nth

/-- src/unnamed/part_000 lines 121-139 (closure body, shared verbatim with
retry.go lines 262-275): jitter := randomsrc.Int63n(int64(d)) — rand.Int63n
panics unless d > 0, modelled as none — then a coin flip negates it, then
splayCore adds it to base(retry) with overflow avoidance.  draw stands for
the Int63n result (0 ≤ draw < d) and coin for "randomsrc.Int()%2 == 0". -/
def splayBody (f : Int → Int) (d retry draw : Int) (coin : Bool) : Option Int :=
  if d ≤ 0 then none
  else some (Retry.splayCore (f retry) (if coin then -draw else draw))

/-- src/unnamed/part_000 lines 121-139: Splay rejects a nil base at
construction time. -/
def Splay (base : Option (Int → Int)) (d : Int) :
    Except String (Int → Int → Bool → Option Int) :=
  match base with
  | none => Except.error "Splay called on nil Strategy"
  | some f => Except.ok (fun retry draw coin => splayBody f d retry draw coin)

/-- src/unnamed/part_000 lines 171-173: the closure returned by Add,
"return base(retry) + dur" (int64 addition). -/
def addBody (f : Int → Int) (dur retry : Int) : Int := Retry.wrap64 (f retry + dur)

/-- src/unnamed/part_000 lines 165-174: Add rejects a nil base at
construction time. -/
def Add (base : Option (Int → Int)) (dur : Int) : Except String (Int → Int) :=
  match base with
  | none => Except.error "Add called on nil Strategy"
  | some f => Except.ok (fun retry => addBody f dur retry)

/-- src/unnamed/part_000 lines 182-184: the closure returned by Sub.
Its documentation says it subtracts dur, but the body is
"return base(retry) + dur". -/
def subBody (f : Int → Int) (dur retry : Int) : Int := Retry.wrap64 (f retry + dur)

/-- src/unnamed/part_000 lines 176-185: Sub rejects a nil base at
construction time. -/
def Sub (base : Option (Int → Int)) (dur : Int) : Except String (Int → Int) :=
  match base with
  | none => Except.error "Sub called on nil Strategy"
  | some f => Except.ok (fun retry => subBody f dur retry)

/-- src/unnamed/part_000 lines 191-204 (closure body): Unshift clamps nth
to 0, serves dur[nth] for nth < len(dur), and otherwise delegates to
base(nth - len(dur)). -/
def Unshift (base : Int → Int) (dur : List Int) : Int → Int := fun nth =>
  if Retry.clamp0 nth < (dur.length : Int) then Retry.goGet dur (Retry.clamp0 nth)
  else base (Retry.clamp0 nth - (dur.length : Int))

end RetryA

namespace RetryB

/-- src/unnamed/part_000 lines 389-404: this Splay variant has no nil-base
check; construction always succeeds and a nil base makes every evaluation
panic (none).  In the Go body the Int63n draw happens before the base call,
so a non-positive d also panics at evaluation time. -/
def Splay (base : Option (Int → Int)) (d : Int) :
    Except String (Int → Int → Bool → Option Int) :=
  Except.ok (fun retry draw coin =>
    if d ≤ 0 then none
    else match base with
      | none => none
      | some f => some (Retry.splayCore (f retry) (if coin then -draw else draw)))

end RetryB

namespace RetryC

/-- src/retry.go lines 39-55: Exponential(max) computes
ceil := time.Second * Duration(max) (MaxInt64 when max < 0), then
val := time.Second * Duration(2^nth) with unchecked int64 doubling, and
returns ceil when val < 0 or val > ceil, else val. -/
def Exponential (mx : Int) : Int → Int :=
  let ceil := if mx < 0 then Retry.maxInt64 else Retry.wrap64 (Retry.second * mx)
  fun nth =>
    let val := Retry.wrap64 (Retry.second * Retry.doubleLoop nth.toNat 1)
    if val < 0 ∨ val > ceil then ceil else val

/-- src/retry.go lines 60-70: this Milliseconds variant has no empty-list
guard: for an empty argument list the closure evaluates ms[len(ms)-1] =
ms[-1], an out-of-range index (none = run-time panic). -/
def Milliseconds (ms : List Int) : Int → Option Int := fun nth =>
  if Retry.clamp0 nth < (ms.length : Int) then
    (Retry.goIndex ms (Retry.clamp0 nth)).map (fun v => Retry.wrap64 (Retry.millisecond * v))
  else
    (Retry.goIndex ms ((ms.length : Int) - 1)).map (fun v => Retry.wrap64 (Retry.millisecond * v))

/-- src/retry.go lines 91-103: this Splay variant has no nil-base check.
The Go code computes jitter := time.Duration(float64(time.Second)*seconds);
that floating-point conversion is abstracted here as the already-converted
integer jitterNs.  A nil base makes every evaluation panic (none). -/
def Splay (base : Option (Int → Int)) (jitterNs : Int) :
    Except String (Int → Option Int) :=
  Except.ok (fun retry =>
    match base with
    | none => none
    | some f => some (Retry.splayCore (f retry) jitterNs))

end RetryC

namespace RetryD

/-- src/retry.go lines 170-188: Exponential(units) returns units * 2^n,
0 for negative n, saturating at math.MaxInt64 via the checked doubling
loop. -/
def Exponential (units : Int) : Int → Int := fun n =>
  if n < 0 then 0 else Retry.expLoop n.toNat units

/-- src/retry.go lines 195-211: Intervals copies the argument list into buf
at construction and the closure reads only buf, so the single list here is
the construction-time contents; clamping and empty-list behaviour as
Fixed. -/
def Intervals (dur : List Int) : Int → Int :=
  if dur.length = 0 then fun _ => 0
  else fun nth => Retry.tableLookup dur nth

/-- src/retry.go lines 235-250: Seconds checks emptiness of, and copies
into buf, the construction-time slice — but the returned closure indexes
the caller's live slice secs (buf is never read).  construction is the
slice contents at construction time, live the contents of the same (still
aliased) slice when the strategy is evaluated; element mutation preserves
length. -/
def Seconds (construction live : List Int) : Int → Int :=
  if construction.length = 0 then fun _ => 0
  else fun nth => Retry.scaledLookup Retry.second live nth

/-- src/retry.go lines 279-286 (closure body; identically Units at
src/unnamed/part_000 lines 156-163): "return base(try) * units", plain
int64 multiplication with no overflow guard. -/
def Scale (base : Int → Int) (units : Int) : Int → Int := fun n =>
  Retry.wrap64 (base n * units)

/-- src/retry.go lines 357-370 (closure body): Overwrite clamps nth to 0,
serves dur[nth] for nth < len(dur), and otherwise delegates to base(nth)
unshifted. -/
def Overwrite (base : Int → Int) (dur : List Int) : Int → Int := fun nth =>
  if Retry.clamp0 nth < (dur.length : Int) then Retry.goGet dur (Retry.clamp0 nth)
  else base (Retry.clamp0 nth)

end RetryD

namespace Retry

lemma wrap64_id (x : Int) (hlo : -9223372036854775808 ≤ x)
    (hhi : x ≤ 9223372036854775807) : wrap64 x = x := by
  unfold wrap64
  omega

/-- Closed form of the saturating doubling loop: starting from an in-range
nonnegative x it computes min (x * 2^n) MaxInt64 exactly, never wrapping. -/
lemma expLoop_spec (n : Nat) (x : Int) (h0 : 0 ≤ x) (h1 : x ≤ maxInt64) :
    expLoop n x = if x * 2 ^ n ≤ maxInt64 then x * 2 ^ n else maxInt64 := by
  induction n generalizing x with
  | zero =>
    simp only [expLoop, pow_zero, mul_one]
    rw [if_pos h1]
  | succ n ih =>
    simp only [expLoop]
    by_cases h : x > maxInt64 / 2
    · rw [if_pos h]
      have hx : 4611686018427387904 ≤ x := by
        simp only [maxInt64] at h; omega
      have hp : (1:Int) ≤ 2 ^ n := one_le_pow₀ (by norm_num)
      have : (9223372036854775808 : Int) * 1 ≤ x * 2 * 2 ^ n := by
        apply mul_le_mul (by omega) hp (by norm_num) (by omega)
      rw [if_neg]
      · simp only [maxInt64]
        rw [pow_succ]
        push_neg
        calc (9223372036854775807 : Int) < 9223372036854775808 * 1 := by norm_num
        _ ≤ x * (2 ^ n * 2) := by rw [mul_comm (2^n) 2, ← mul_assoc]; exact this
    · rw [if_neg h]
      have hx2 : x * 2 ≤ maxInt64 := by simp only [maxInt64] at *; omega
      rw [wrap64_id (x * 2) (by simp only [maxInt64] at *; omega)
        (by simpa [maxInt64] using hx2)]
      rw [ih (x * 2) (by omega) hx2]
      have : x * 2 * 2 ^ n = x * 2 ^ (n + 1) := by ring
      rw [this]

end Retry

/-- C1: the claim says s.Sub(d)(n) == s(n) - d for every base Strategy.
The Sub closure of src/unnamed/part_000 lines 176-185 instead computes
base(retry) + dur: with base = Fixed(10ns), d = 3ns, n = 0 it returns
13ns where the claim requires 7ns. -/
theorem c1_sub_adds : RetryA.subBody (RetryA.Fixed [10]) 3 0 = 13 ∧
    (13 : Int) ≠ 10 - 3 := by
  constructor
  · decide
  · decide

/-- C2: the claim says evaluation never raises an error once construction
succeeds.  The Milliseconds variant at src/retry.go lines 60-70 accepts an
empty table at construction but its closure then evaluates ms[-1] and
panics (none); by contrast a one-element table evaluates fine.  Likewise
the Splay closure of src/unnamed/part_000 lines 121-139 calls
rand.Int63n(d), which panics for a spread d = 0 (none). -/
theorem c2_eval_panics : RetryC.Milliseconds [] 0 = none ∧
    RetryC.Milliseconds [7] 0 = some (7 * Retry.millisecond) ∧
    RetryA.splayBody (fun _ => 0) 0 0 0 false = none := by
  refine ⟨by decide, by decide, by decide⟩

/-- C9: the claim says mutating the caller's slice after construction
leaves every output of the table generators unchanged.  The Seconds
variant at src/retry.go lines 235-250 copies the slice into buf but the
closure reads the live slice: constructed from [2] and evaluated after the
caller mutates the slice to [5], attempt 0 yields 5s, not the 2s the claim
requires. -/
theorem c9_seconds_reads_live_slice :
    RetryD.Seconds [2] [5] 0 = Retry.wrap64 (Retry.second * 5) ∧
    RetryD.Seconds [2] [2] 0 = Retry.wrap64 (Retry.second * 2) ∧
    Retry.wrap64 (Retry.second * 5) ≠ Retry.wrap64 (Retry.second * 2) := by
  refine ⟨by decide, by decide, by decide⟩

set_option maxRecDepth 4000 in
/-- C3 counterexample: the claim says overflow always saturates toward the
maximum representable value.  The Exponential variant at src/retry.go
lines 39-55 returns Exponential(1)(55) = 0 — the wrapped product
2^55 seconds is a multiple of 2^64 ns — after returning the 1s ceiling at
attempt 54; and Scale at src/retry.go lines 279-286 wraps
(2^62 ns) * 4 to 0 although the true product exceeds MaxInt64. -/
theorem c3_counterexample : RetryC.Exponential 1 55 = 0 ∧
    RetryC.Exponential 1 54 = Retry.second ∧
    RetryD.Scale (RetryD.Intervals [2 ^ 62]) 4 0 = 0 ∧
    Retry.maxInt64 < 2 ^ 62 * 4 := by
  refine ⟨by decide, by decide, by decide, by decide⟩

/-- C4 counterexample: the claim says the Exponential generator maps every
negative attempt index to the zero duration, but the variant at
src/retry.go lines 39-55 runs its doubling loop zero times for a negative
attempt and returns 1 second. -/
theorem c4_counterexample : RetryC.Exponential 3 (-1) = Retry.second ∧
    Retry.second ≠ (0 : Int) := by
  refine ⟨by decide, by decide⟩

/-- C5 counterexample: the claim requires strict increase whenever two
consecutive Exponential values are below the ceiling, but with unit 0 the
generator at src/retry.go lines 170-188 returns 0 at every attempt, so two
consecutive values sit below the MaxInt64 ceiling without increasing. -/
theorem c5_counterexample : RetryD.Exponential 0 0 = 0 ∧
    RetryD.Exponential 0 1 = 0 ∧ RetryD.Exponential 0 0 < Retry.maxInt64 ∧
    RetryD.Exponential 0 1 < Retry.maxInt64 ∧
    ¬ RetryD.Exponential 0 0 < RetryD.Exponential 0 1 := by
  refine ⟨by decide, by decide, by decide, by decide, by decide⟩

/-- C3 amended: the duration-unit Exponential generator (src/retry.go lines
170-188) never wraps: its output always lies in the representable int64
range, and for a nonnegative attempt it is exactly units * 2^n saturated at
math.MaxInt64. -/
theorem c3_exponential_saturates (u n : Int) (h0 : 0 ≤ u)
    (h1 : u ≤ Retry.maxInt64) :
    Retry.minInt64 ≤ RetryD.Exponential u n ∧
    RetryD.Exponential u n ≤ Retry.maxInt64 ∧
    (0 ≤ n → RetryD.Exponential u n =
      if u * 2 ^ n.toNat ≤ Retry.maxInt64 then u * 2 ^ n.toNat
      else Retry.maxInt64) := by
  by_cases hn : n < 0
  · simp only [RetryD.Exponential, if_pos hn]
    refine ⟨by norm_num [Retry.minInt64], by norm_num [Retry.maxInt64],
      fun h => absurd hn (not_lt.mpr h)⟩
  · simp only [RetryD.Exponential, if_neg hn,
      Retry.expLoop_spec n.toNat u h0 h1]
    have hpow : (0 : Int) < 2 ^ n.toNat := pow_pos (by norm_num) _
    refine ⟨?_, ?_, fun _ => by trivial⟩
    · split_ifs with h
      · have hp : (0 : Int) ≤ u * 2 ^ n.toNat := mul_nonneg h0 (le_of_lt hpow)
        norm_num [Retry.minInt64]
        linarith
      · norm_num [Retry.minInt64, Retry.maxInt64]
    · split_ifs with h
      · exact h
      · exact le_refl _

theorem c3_witness :
    Retry.minInt64 ≤ RetryD.Exponential 1 3 ∧
    RetryD.Exponential 1 3 ≤ Retry.maxInt64 ∧
    (0 ≤ (3 : Int) → RetryD.Exponential 1 3 =
      if 1 * 2 ^ (3 : Int).toNat ≤ Retry.maxInt64 then 1 * 2 ^ (3 : Int).toNat
      else Retry.maxInt64) :=
  c3_exponential_saturates 1 3 (by decide) (by decide)

/-- C4 amended: for a negative attempt index every interval-table generator
behaves exactly as at attempt 0; the nanosecond-unit Exponential generators
(part_000 lines 44-59, retry.go lines 170-188) return 0, while the
seconds-based Exponential (retry.go lines 39-55) also behaves as at
attempt 0 (returning min(1s, ceiling), not 0). -/
theorem c4_generators_clamp_negative (dur ms secs : List Int) (u mx n : Int)
    (hn : n < 0) :
    RetryA.Fixed dur n = RetryA.Fixed dur 0 ∧
    RetryA.Milliseconds ms n = RetryA.Milliseconds ms 0 ∧
    RetryA.Seconds secs n = RetryA.Seconds secs 0 ∧
    RetryD.Intervals dur n = RetryD.Intervals dur 0 ∧
    RetryA.Exponential n = 0 ∧
    RetryD.Exponential u n = 0 ∧
    RetryC.Exponential mx n = RetryC.Exponential mx 0 := by
  have hc : Retry.clamp0 n = Retry.clamp0 0 := by
    simp [Retry.clamp0, hn]
  have htab : ∀ tbl : List Int, Retry.tableLookup tbl n = Retry.tableLookup tbl 0 := by
    intro tbl; unfold Retry.tableLookup; rw [hc]
  have hsc : ∀ u2 : Int, ∀ tbl : List Int,
      Retry.scaledLookup u2 tbl n = Retry.scaledLookup u2 tbl 0 := by
    intro u2 tbl; unfold Retry.scaledLookup; rw [hc]
  have htn : n.toNat = 0 := Int.toNat_of_nonpos (le_of_lt hn)
  refine ⟨?_, ?_, ?_, ?_, ?_, ?_, ?_⟩
  · unfold RetryA.Fixed; split
    · rfl
    · exact htab dur
  · unfold RetryA.Milliseconds; split
    · rfl
    · exact hsc Retry.millisecond ms
  · unfold RetryA.Seconds; split
    · rfl
    · exact hsc Retry.second secs
  · unfold RetryD.Intervals; split
    · rfl
    · exact htab dur
  · simp [RetryA.Exponential, hn]
  · simp [RetryD.Exponential, hn]
  · simp only [RetryC.Exponential, htn, Int.toNat_zero]

theorem c4_witness :
    RetryA.Fixed [3, 4] (-2) = RetryA.Fixed [3, 4] 0 ∧
    RetryA.Milliseconds [1] (-2) = RetryA.Milliseconds [1] 0 ∧
    RetryA.Seconds [2] (-2) = RetryA.Seconds [2] 0 ∧
    RetryD.Intervals [3, 4] (-2) = RetryD.Intervals [3, 4] 0 ∧
    RetryA.Exponential (-2) = 0 ∧
    RetryD.Exponential 7 (-2) = 0 ∧
    RetryC.Exponential 5 (-2) = RetryC.Exponential 5 0 :=
  c4_generators_clamp_negative [3, 4] [1] [2] 7 5 (-2) (by decide)

/-- C5 amended: for a positive in-range unit u, the duration-unit
Exponential generator (src/retry.go lines 170-188) is monotone in the
attempt index, strictly increasing while both consecutive values are below
the MaxInt64 ceiling, and never exceeds that ceiling. -/
theorem c5_exponential_monotone (u n : Int) (hu : 0 < u)
    (hu2 : u ≤ Retry.maxInt64) (hn : 0 ≤ n) :
    RetryD.Exponential u n ≤ RetryD.Exponential u (n + 1) ∧
    (RetryD.Exponential u n < Retry.maxInt64 →
      RetryD.Exponential u (n + 1) < Retry.maxInt64 →
      RetryD.Exponential u n < RetryD.Exponential u (n + 1)) ∧
    RetryD.Exponential u n ≤ Retry.maxInt64 := by
  have h1 : ¬ n < 0 := not_lt.mpr hn
  have h2 : ¬ n + 1 < 0 := by omega
  have ht : (n + 1).toNat = n.toNat + 1 := by omega
  simp only [RetryD.Exponential, if_neg h1, if_neg h2, ht,
    Retry.expLoop_spec n.toNat u (le_of_lt hu) hu2,
    Retry.expLoop_spec (n.toNat + 1) u (le_of_lt hu) hu2]
  have hpow : (0 : Int) < 2 ^ n.toNat := pow_pos (by norm_num) _
  have hmul : u * 2 ^ n.toNat < u * 2 ^ (n.toNat + 1) := by
    rw [pow_succ]
    nlinarith
  refine ⟨?_, ?_, ?_⟩
  · split_ifs with hA hB hB
    · exact le_of_lt hmul
    · exact hA
    · linarith
    · exact le_refl _
  · split_ifs with hA hB hB
    · intro _ _; exact hmul
    · intro _ h; exact absurd h (lt_irrefl _)
    · intro h _; exact absurd h (lt_irrefl _)
    · intro h _; exact absurd h (lt_irrefl _)
  · split_ifs with hA
    · exact hA
    · exact le_refl _

theorem c5_witness :
    RetryD.Exponential 1 0 ≤ RetryD.Exponential 1 (0 + 1) ∧
    (RetryD.Exponential 1 0 < Retry.maxInt64 →
      RetryD.Exponential 1 (0 + 1) < Retry.maxInt64 →
      RetryD.Exponential 1 0 < RetryD.Exponential 1 (0 + 1)) ∧
    RetryD.Exponential 1 0 ≤ Retry.maxInt64 :=
  c5_exponential_monotone 1 0 (by decide) (by decide) (by decide)

/-- C6: for a non-empty table and a nonnegative attempt n, Intervals
(src/retry.go lines 195-211) and Fixed (src/unnamed/part_000 lines 66-79)
return entry min(n, k) where k is the last index (attempts past the end
plateau at the last entry), and for the empty table they return 0 at every
attempt. -/
theorem c6_intervals_lookup (dur : List Int) (n : Int) :
    (dur ≠ [] → 0 ≤ n →
      RetryD.Intervals dur n = dur.getD (min n.toNat (dur.length - 1)) 0 ∧
      RetryA.Fixed dur n = dur.getD (min n.toNat (dur.length - 1)) 0) ∧
    RetryD.Intervals [] n = 0 ∧ RetryA.Fixed [] n = 0 := by
  refine ⟨fun hne hn => ?_, rfl, rfl⟩
  have hlen : dur.length ≠ 0 := fun h => hne (List.length_eq_zero.mp h)
  have hclamp : Retry.clamp0 n = n := if_neg (not_lt.mpr hn)
  have key : Retry.tableLookup dur n = dur.getD (min n.toNat (dur.length - 1)) 0 := by
    unfold Retry.tableLookup Retry.goGet
    rw [hclamp]
    by_cases h : n < (dur.length : Int)
    · rw [if_pos h]
      congr 1
      omega
    · rw [if_neg h]
      congr 1
      omega
  constructor
  · unfold RetryD.Intervals
    rw [if_neg hlen]
    exact key
  · unfold RetryA.Fixed
    rw [if_neg hlen]
    exact key

theorem c6_witness :
    RetryD.Intervals [4, 7, 9] 5 = 9 ∧ RetryA.Fixed [4, 7, 9] 5 = 9 := by
  have h := (c6_intervals_lookup [4, 7, 9] 5).1 (by decide) (by decide)
  constructor
  · rw [h.1]; decide
  · rw [h.2]; decide

/-- C7: for every in-range base value, spread d, and random draw, the Splay
closure (src/unnamed/part_000 lines 121-139 and src/retry.go lines 257-276)
returns a value within [base(n) - d, base(n) + d], and the jitter-negation
guard keeps the final addition inside the int64 range, so no wrap-around
occurs. -/
theorem c7_splay_within_spread (f : Int → Int) (d retry draw : Int)
    (coin : Bool) (hlo : Retry.minInt64 ≤ f retry)
    (hhi : f retry ≤ Retry.maxInt64) (hd : 0 < d) (hd2 : d ≤ Retry.maxInt64)
    (hdraw0 : 0 ≤ draw) (hdraw1 : draw < d) :
    ∃ r, RetryA.splayBody f d retry draw coin = some r ∧
      f retry - d ≤ r ∧ r ≤ f retry + d ∧
      Retry.minInt64 ≤ r ∧ r ≤ Retry.maxInt64 := by
  unfold RetryA.splayBody
  rw [if_neg (by omega)]
  refine ⟨_, rfl, ?_⟩
  unfold Retry.splayCore
  set val := f retry with hval
  set j0 := (if coin then -draw else draw) with hj0
  have hj : -draw ≤ j0 ∧ j0 ≤ draw := by
    cases coin <;> simp [hj0] <;> omega
  simp only [Retry.maxInt64, Retry.minInt64] at *
  split_ifs with hA hB
  · rw [Retry.wrap64_id _ (by omega) (by omega)]
    omega
  · rw [Retry.wrap64_id _ (by omega) (by omega)]
    omega
  · rw [Retry.wrap64_id _ (by omega) (by omega)]
    omega

theorem c7_witness :
    ∃ r, RetryA.splayBody (fun _ => 0) 5 0 3 false = some r ∧
      -5 ≤ r ∧ r ≤ 5 ∧ Retry.minInt64 ≤ r ∧ r ≤ Retry.maxInt64 := by
  have h := c7_splay_within_spread (fun _ => 0) 5 0 3 false (by decide)
    (by decide) (by decide) (by decide) (by decide) (by decide)
  simpa using h

/-- C8 counterexample: the claim says every combinator applied to a nil
base fails at construction time, but the Splay at src/unnamed/part_000
lines 389-404 performs no nil check: construction on a nil base succeeds
(Except.ok) and the returned closure then panics at evaluation time
(none). -/
theorem c8_counterexample :
    ∃ g, RetryB.Splay none 5 = Except.ok g ∧ g 0 3 false = none :=
  ⟨_, rfl, rfl⟩

/-- C8 amended: the combinators of src/unnamed/part_000 lines 44-267
(here Add, Sub, Splay) reject a nil base at construction time with an
immediate error, but the Splay of part_000 lines 389-404 and the Splay of
retry.go lines 91-103 perform no nil check: their construction succeeds on
a nil base and every later evaluation crashes (none) instead. -/
theorem c8_nil_base_handling (d dur2 : Int) :
    (∃ e, RetryA.Add none dur2 = Except.error e) ∧
    (∃ e, RetryA.Sub none dur2 = Except.error e) ∧
    (∃ e, RetryA.Splay none d = Except.error e) ∧
    (∃ g, RetryB.Splay none d = Except.ok g ∧ ∀ r dr c, g r dr c = none) ∧
    (∃ g, RetryC.Splay none d = Except.ok g ∧ ∀ r, g r = none) := by
  refine ⟨⟨_, rfl⟩, ⟨_, rfl⟩, ⟨_, rfl⟩, ⟨_, rfl, ?_⟩, ⟨_, rfl, fun r => rfl⟩⟩
  intro r dr c
  show (if d ≤ 0 then (none : Option Int) else none) = none
  split <;> rfl

/-- A helper for C10: the Unshift closure with an empty parameter list
reduces to the base applied to the clamped attempt index. -/
lemma unshift_empty (s : Int → Int) (m : Int) :
    RetryA.Unshift s [] m = s (Retry.clamp0 m) := by
  unfold RetryA.Unshift
  have h : ¬ Retry.clamp0 m < (([] : List Int).length : Int) := by
    unfold Retry.clamp0
    split <;> simp
    omega
  rw [if_neg h]
  simp

/-- A helper for C10: the Overwrite closure with an empty parameter list
reduces to the base applied to the clamped attempt index. -/
lemma overwrite_empty (s : Int → Int) (m : Int) :
    RetryD.Overwrite s [] m = s (Retry.clamp0 m) := by
  unfold RetryD.Overwrite
  have h : ¬ Retry.clamp0 m < (([] : List Int).length : Int) := by
    unfold Retry.clamp0
    split <;> simp
    omega
  rw [if_neg h]

/-- C10: Unshift (src/unnamed/part_000 lines 191-204) and Overwrite
(src/retry.go lines 357-370) with an empty parameter list agree with the
base at every nonnegative attempt but return base(0) at every negative
attempt, which differs from the base itself for the unit Exponential
generator (it maps negative attempts to 0, not to its attempt-0 value). -/
theorem c10_empty_unshift_overwrite (s : Int → Int) (n : Int) :
    (0 ≤ n → RetryA.Unshift s [] n = s n ∧ RetryD.Overwrite s [] n = s n) ∧
    (n < 0 → RetryA.Unshift s [] n = s 0 ∧ RetryD.Overwrite s [] n = s 0) ∧
    RetryA.Unshift (RetryD.Exponential 1) [] (-1) = 1 ∧
    RetryD.Overwrite (RetryD.Exponential 1) [] (-1) = 1 ∧
    RetryD.Exponential 1 (-1) = 0 := by
  refine ⟨fun hn => ?_, fun hn => ?_, ?_, ?_, by decide⟩
  · have hc : Retry.clamp0 n = n := if_neg (not_lt.mpr hn)
    rw [unshift_empty, overwrite_empty, hc]
    exact ⟨rfl, rfl⟩
  · have hc : Retry.clamp0 n = 0 := if_pos hn
    rw [unshift_empty, overwrite_empty, hc]
    exact ⟨rfl, rfl⟩
  · rw [unshift_empty]; decide
  · rw [overwrite_empty]; decide

theorem c10_witness :
    RetryA.Unshift (fun k => k + 100) [] 5 = 105 ∧
    RetryD.Overwrite (fun k => k + 100) [] 5 = 105 ∧
    RetryA.Unshift (fun k => k + 100) [] (-3) = 100 ∧
    RetryD.Overwrite (fun k => k + 100) [] (-3) = 100 := by
  have h1 := (c10_empty_unshift_overwrite (fun k => k + 100) 5).1 (by decide)
  have h2 := ((c10_empty_unshift_overwrite (fun k => k + 100) (-3)).2).1 (by decide)
  exact ⟨by rw [h1.1]; decide, by rw [h1.2]; decide,
    by rw [h2.1]; decide, by rw [h2.2]; decide⟩
